import Mathlib

/-!
Verification of the GEAdrive Cross_Data fault analysis pipeline
(GEALOC_demo.py).  The core pipeline filters the loaded rows by year,
revenue hours and a fault code substring, splits the filtered rows into
false alarms (null comment) and actual faults (non null comment), and
derives summary percentages, per location counts, location by cause
co-occurrence counts with a minimum support threshold of 5, and ranked
cause counts.  Rows are modelled as records whose nullable cells are
Option values; the Year column is modelled after the normalization of
line 28 (unparsable dates become none).
-/

/-- A row of the selected sheet after the Year normalization of line 28:
year holds the extracted integer year or none for unparsable dates, and
every other nullable cell is an Option value. -/
structure Record where
  year : Option Int
  revenueHours : Option String
  faultCode : Option String
  gealoc : Option String
  comment : Option String
deriving DecidableEq, Repr

/-- Case sensitive substring test: some contiguous slice of s equals pat.
Models pandas str.contains with a plain pattern and case=True (line 46). -/
def strContainsSub (s pat : String) : Bool :=
  (List.range (s.data.length + 1)).any fun i =>
    ((s.data.drop i).take pat.data.length) == pat.data

/-- The fixed fault code substring of line 46. -/
def crossDataPattern : String := "Cross_Data"

/-- The user selections of lines 33 and 35: none models the Total choice,
meaning no filtering on that attribute. -/
structure FilterCriteria where
  year : Option Int
  revenueHours : Option String
deriving DecidableEq, Repr

/-- Year filter (lines 38 and 39).  A pandas equality comparison against a
null year is false, so rows with a none year are excluded whenever a
specific year is selected. -/
def year_filter (yopt : Option Int) (rs : List Record) : List Record :=
  match yopt with
  | none => rs
  | some y => rs.filter fun r => r.year == some y

/-- Revenue hours filter (lines 42 and 43): exact, case sensitive equality;
a null revenue hours cell never matches. -/
def revenue_filter (ropt : Option String) (rs : List Record) : List Record :=
  match ropt with
  | none => rs
  | some v => rs.filter fun r => r.revenueHours == some v

/-- Fault code filter (line 46): case sensitive substring containment with
na=False, so a missing fault code never matches. -/
def fault_code_filter (rs : List Record) : List Record :=
  rs.filter fun r =>
    match r.faultCode with
    | none => false
    | some s => strContainsSub s crossDataPattern

/-- The whole filter pipeline of lines 38 to 46: year filter, then revenue
hours filter, then the always applied fault code filter. -/
def apply_filters (c : FilterCriteria) (rs : List Record) : List Record :=
  fault_code_filter (revenue_filter c.revenueHours (year_filter c.year rs))

/-- False alarms (line 52): the rows whose comment cell is null. -/
def df_false (rs : List Record) : List Record :=
  rs.filter fun r => r.comment.isNone

/-- Actual faults (line 53): the rows whose comment cell is present. -/
def df_actual (rs : List Record) : List Record :=
  rs.filter fun r => r.comment.isSome

/-- Total report count (line 49). -/
def total_reports (rs : List Record) : Nat := rs.length

/-- False alarm count (line 55). -/
def false_count (rs : List Record) : Nat := (df_false rs).length

/-- Actual fault count (line 56). -/
def actual_count (rs : List Record) : Nat := (df_actual rs).length

/-- pandas value_counts: one entry per distinct value paired with its
number of occurrences, sorted by count descending.  The relative order of
entries with equal counts is not part of any verified property (the spec
leaves the tie break open). -/
def value_counts {α : Type} [DecidableEq α] (xs : List α) : List (α × Nat) :=
  (xs.dedup.map fun a => (a, xs.count a)).mergeSort fun p q => decide (q.2 ≤ p.2)

/-- Per location counts of the actual faults (lines 75 and 76).  pandas
value_counts silently drops null keys, modelled by the filterMap. -/
def gealoc_counts (rs : List Record) : List (String × Nat) :=
  value_counts ((df_actual rs).filterMap fun r => r.gealoc)

/-- The (GEALOC, Comment) pairs of the actual faults that enter the
groupby of line 91.  pandas groupby drops rows whose key contains a null
(its dropna default), which the filterMap models; the comment side is
always present for actual faults. -/
def heatmap_pairs (rs : List Record) : List (String × String) :=
  (df_actual rs).filterMap fun r =>
    match r.gealoc, r.comment with
    | some g, some c => some (g, c)
    | _, _ => none

/-- The groupby size of line 91: one triple per distinct (location, cause)
pair with its occurrence count.  The order of the triples is not part of
any verified property. -/
def pivot_counts (rs : List Record) : List (String × String × Nat) :=
  (heatmap_pairs rs).dedup.map fun p => (p.1, p.2, (heatmap_pairs rs).count p)

/-- The minimum support threshold of line 92: only pairs with count at
least 5 survive. -/
def pivot (rs : List Record) : List (String × String × Nat) :=
  (pivot_counts rs).filter fun t => decide (5 ≤ t.2.2)

/-- Ranked cause counts of the actual faults (lines 104 and 105). -/
def cause_counts (rs : List Record) : List (String × Nat) :=
  value_counts ((df_actual rs).filterMap fun r => r.comment)

/-- Base two logarithm with explicit fuel: floor of log2 n for n at least
one, provided n is below 2 to the fuel. -/
def log2fuel : Nat → Nat → Nat
  | 0, _ => 0
  | fuel + 1, n => if 2 ≤ n then log2fuel fuel (n / 2) + 1 else 0

/-- Floor of the base two logarithm, with fuel covering every numerator
that occurs in the percentage computations. -/
def nlog2 (n : Nat) : Nat := log2fuel 600 n

/-- Round a / b to the nearest integer with ties to even, for a at least 0
and b positive: the rounding IEEE 754 prescribes. -/
def rheInt (a b : Int) : Int :=
  let q := a.ediv b
  let r := a.emod b
  if 2 * r < b then q
  else if b < 2 * r then q + 1
  else if q.emod 2 = 0 then q else q + 1

/-- An IEEE 754 binary64 value written as m times 2 to the e.  For the
nonzero values produced here m is the full 53 bit significand. -/
structure F64 where
  m : Int
  e : Int
deriving DecidableEq, Repr

/-- Correctly rounded double division c / t for naturals (t positive):
round to nearest with ties to even, as Python float division does. -/
def divF64 (c t : Nat) : F64 :=
  if c = 0 then ⟨0, 0⟩
  else
    let e : Int := (nlog2 (c * 2 ^ 400 / t) : Int) - 400
    let m : Int :=
      if 0 ≤ 52 - e then rheInt ((c : Int) * 2 ^ (52 - e).toNat) (t : Int)
      else rheInt (c : Int) ((t : Int) * 2 ^ (e - 52).toNat)
    ⟨m, e - 52⟩

/-- Correctly rounded double multiplication by 100, as Python evaluates
(c / t) * 100 in lines 63 and 65. -/
def mul100F64 (x : F64) : F64 :=
  if x.m = 0 then x
  else
    let p := x.m * 100
    let k := nlog2 p.natAbs - 52
    ⟨rheInt p (2 ^ k), x.e + k⟩

/-- The double x times 100 rounded to the nearest integer with ties to
even: the number of hundredths a Python two decimal format prints. -/
def f64TimesHundred (x : F64) : Int :=
  if 0 ≤ x.e then x.m * 100 * 2 ^ x.e.toNat
  else rheInt (x.m * 100) (2 ^ (-x.e).toNat)

/-- The two decimal percentage of lines 63 and 65 as an integer number of
hundredths of a percent: Python divides the two counts in double
precision, multiplies by 100 in double precision, and formats the result
with two decimals (correctly rounded, ties to even). -/
def pythonPctHundredths (c t : Nat) : Int :=
  f64TimesHundred (mul100F64 (divF64 c t))

/-- Render a nonnegative number of hundredths of a percent the way the
Python format string does: integer part, a point, two digits, a percent
sign. -/
def pctString (h : Int) : String :=
  let n := h.toNat
  toString (n / 100) ++ "." ++ (if n % 100 < 10 then "0" else "") ++ toString (n % 100) ++ "%"

/-- The summary table fields of lines 60 to 66. -/
structure SummaryData where
  totalReports : Nat
  falseAlarms : Nat
  falsePct : String
  actualFaults : Nat
  actualPct : String
deriving DecidableEq, Repr

/-- The summary of lines 60 to 66: counts, and percentages that fall back
to 0.00% when the total is zero. -/
def summary_data (rs : List Record) : SummaryData :=
  { totalReports := total_reports rs
    falseAlarms := false_count rs
    falsePct :=
      if total_reports rs ≠ 0 then
        pctString (pythonPctHundredths (false_count rs) (total_reports rs))
      else "0.00%"
    actualFaults := actual_count rs
    actualPct :=
      if total_reports rs ≠ 0 then
        pctString (pythonPctHundredths (actual_count rs) (total_reports rs))
      else "0.00%" }

/-- Round a rational to the nearest integer with ties to even. -/
def rheQ (q : ℚ) : Int :=
  if q - ⌊q⌋ < 1 / 2 then ⌊q⌋
  else if (1 : ℚ) / 2 < q - ⌊q⌋ then ⌊q⌋ + 1
  else if ⌊q⌋ % 2 = 0 then ⌊q⌋ else ⌊q⌋ + 1

/-- The percentage of lines 63 and 65 recomputed in exact rational
arithmetic and rounded half to even to two decimals, as hundredths of a
percent: the idealization of the double precision evaluation that the
code performs. -/
def exactPctHundredths (c t : Nat) : Int :=
  if t = 0 then 0 else rheQ ((c : ℚ) * 10000 / (t : ℚ))

/-- A record whose comment is null, matching the fault code filter. -/
def recNoComment : Record :=
  ⟨some 2024, some "Yes", some "Cross_Data", some "A", none⟩

/-- A record with a comment, matching the fault code filter. -/
def recWithComment : Record :=
  ⟨some 2024, some "Yes", some "Cross_Data", some "A", some "X"⟩

/-- A filtered record set with 4000 rows of which exactly one is a false
alarm: the input exhibiting the float rounding drift of the two summary
percentages. -/
def cexRecords : List Record :=
  recNoComment :: List.replicate 3999 recWithComment

set_option maxRecDepth 40000

set_option exponentiation.threshold 500

/-- Helper: over any duplicate free key list that covers xs, the
occurrence counts sum to the length of xs. -/
theorem sum_map_count_of_nodup {α : Type} [DecidableEq α] :
    ∀ (ks xs : List α), ks.Nodup → (∀ x ∈ xs, x ∈ ks) →
      (ks.map fun a => xs.count a).sum = xs.length := by
  intro ks
  induction ks with
  | nil =>
    intro xs _ hsub
    cases xs with
    | nil => simp
    | cons a l => exact absurd (hsub a (by simp)) (by simp)
  | cons k ks ih =>
    intro xs hnd hsub
    obtain ⟨hk, hnd2⟩ := List.nodup_cons.1 hnd
    have hsplit : xs.count k + (xs.filter fun x => !(x == k)).length = xs.length := by
      rw [List.count_eq_countP, List.countP_eq_length_filter, ← List.length_append]
      have hperm := List.filter_append_perm (fun x => x == k) xs
      exact hperm.length_eq
    have hcong : (ks.map fun a => xs.count a)
        = ks.map fun a => (xs.filter fun x => !(x == k)).count a := by
      apply List.map_congr_left
      intro b hb
      have hbne : b ≠ k := fun h => hk (h ▸ hb)
      have hbk : (!(b == k)) = true := by simp [hbne]
      exact (List.count_filter (p := fun x => !(x == k)) hbk).symm
    have hsub2 : ∀ x ∈ xs.filter (fun x => !(x == k)), x ∈ ks := by
      intro x hx
      obtain ⟨hx1, hx2⟩ := List.mem_filter.1 hx
      rcases List.mem_cons.1 (hsub x hx1) with h | h
      · exfalso
        simp only [h, Bool.not_eq_true] at hx2
        simp at hx2
      · exact h
    calc (((k :: ks)).map fun a => xs.count a).sum
        = xs.count k + (ks.map fun a => xs.count a).sum := by simp
      _ = xs.count k + (xs.filter fun x => !(x == k)).length := by
          rw [hcong, ih _ hnd2 hsub2]
      _ = xs.length := hsplit

/-- Helper: value_counts membership describes exactly the distinct values
of the underlying list together with their occurrence counts. -/
theorem mem_value_counts {α : Type} [DecidableEq α] (xs : List α) (a : α) (n : Nat) :
    (a, n) ∈ value_counts xs ↔ a ∈ xs ∧ n = xs.count a := by
  unfold value_counts
  rw [(List.mergeSort_perm _ _).mem_iff]
  simp only [List.mem_map, List.mem_dedup, Prod.mk.injEq]
  constructor
  · rintro ⟨b, hb, rfl, rfl⟩
    exact ⟨hb, rfl⟩
  · rintro ⟨ha, rfl⟩
    exact ⟨a, ha, rfl, rfl⟩

/-- Helper: value_counts is sorted by count, descending. -/
theorem value_counts_sorted {α : Type} [DecidableEq α] (xs : List α) :
    List.Sorted (fun p q : α × Nat => q.2 ≤ p.2) (value_counts xs) := by
  have h := @List.sorted_mergeSort (α × Nat)
    (fun p q : α × Nat => decide (q.2 ≤ p.2))
    (fun a b c h1 h2 => by
      simp only [decide_eq_true_eq] at h1 h2 ⊢
      exact Nat.le_trans h2 h1)
    (fun a b => by
      rcases Nat.le_total b.2 a.2 with h | h <;> simp [h])
    (xs.dedup.map fun a => (a, xs.count a))
  exact List.Pairwise.imp (by simp) h

/-- Helper: the keys of value_counts carry no duplicates. -/
theorem value_counts_keys_nodup {α : Type} [DecidableEq α] (xs : List α) :
    ((value_counts xs).map Prod.fst).Nodup := by
  have hperm := (List.mergeSort_perm (xs.dedup.map fun a => (a, xs.count a))
    (fun p q => decide (q.2 ≤ p.2))).map Prod.fst
  rw [value_counts, (hperm.nodup_iff)]
  rw [List.map_map]
  have : (Prod.fst ∘ fun a : α => (a, xs.count a)) = id := by
    funext b
    simp
  rw [this, List.map_id]
  exact List.nodup_dedup xs

/-- Helper: the counts listed by value_counts sum to the length of the
underlying list. -/
theorem value_counts_sum {α : Type} [DecidableEq α] (xs : List α) :
    ((value_counts xs).map Prod.snd).sum = xs.length := by
  have hperm := (List.mergeSort_perm (xs.dedup.map fun a => (a, xs.count a))
    (fun p q => decide (q.2 ≤ p.2))).map Prod.snd
  rw [value_counts, hperm.sum_eq, List.map_map]
  have : (Prod.snd ∘ fun a : α => (a, xs.count a)) = fun a => xs.count a := by
    funext b
    simp
  rw [this]
  exact sum_map_count_of_nodup xs.dedup xs (List.nodup_dedup xs)
    (fun x hx => List.mem_dedup.2 hx)

/-- Helper: dropping the null cells keeps exactly the rows whose cell is
present. -/
theorem length_filterMap_isSome {α β : Type} (f : α → Option β) (l : List α) :
    (l.filterMap f).length = (l.filter fun a => (f a).isSome).length := by
  induction l with
  | nil => rfl
  | cons a l ih =>
    cases h : f a <;>
      simp [List.filterMap_cons, List.filter_cons, h, ih]

/-- Claim C1: the classifier partitions every filtered record set exactly:
a record is a false alarm iff its annotation is null, an actual fault iff
the annotation is present, the two subsets are disjoint, and the
multiplicities of the two subsets add up to the input, so no record is
dropped or duplicated. -/
theorem classify_partitions (rs : List Record) :
    (∀ r, r ∈ df_false rs ↔ r ∈ rs ∧ r.comment = none) ∧
    (∀ r, r ∈ df_actual rs ↔ r ∈ rs ∧ r.comment ≠ none) ∧
    (∀ r, r ∈ df_false rs → r ∉ df_actual rs) ∧
    (∀ r, (df_false rs).count r + (df_actual rs).count r = rs.count r) := by
  refine ⟨fun r => ?_, fun r => ?_, fun r h1 h2 => ?_, fun r => ?_⟩
  · simp [df_false, List.mem_filter, Option.isNone_iff_eq_none]
  · simp [df_actual, List.mem_filter, Option.isSome_iff_ne_none]
  · simp only [df_false, df_actual, List.mem_filter] at h1 h2
    cases hc : r.comment with
    | none =>
      have := h2.2
      rw [hc] at this
      simp at this
    | some v =>
      have := h1.2
      rw [hc] at this
      simp at this
  · cases hc : r.comment with
    | none =>
      have h2 : (df_actual rs).count r = 0 := by
        rw [List.count_eq_zero]
        intro hmem
        have := (List.mem_filter.1 hmem).2
        rw [hc] at this
        simp at this
      have h1 : (df_false rs).count r = rs.count r := by
        unfold df_false
        exact List.count_filter (by simp [hc])
      rw [h1, h2, Nat.add_zero]
    | some v =>
      have h1 : (df_false rs).count r = 0 := by
        rw [List.count_eq_zero]
        intro hmem
        have := (List.mem_filter.1 hmem).2
        rw [hc] at this
        simp at this
      have h2 : (df_actual rs).count r = rs.count r := by
        unfold df_actual
        exact List.count_filter (by simp [hc])
      rw [h1, h2, Nat.zero_add]

/-- Claim C1 witness: the partition properties evaluated on a concrete
two record input. -/
theorem classify_partitions_witness :
    recNoComment ∈ df_false [recNoComment, recWithComment] ∧
    recWithComment ∈ df_actual [recNoComment, recWithComment] ∧
    (df_false [recNoComment, recWithComment]).count recNoComment +
      (df_actual [recNoComment, recWithComment]).count recNoComment =
      [recNoComment, recWithComment].count recNoComment :=
  ⟨((classify_partitions [recNoComment, recWithComment]).1 recNoComment).mpr
      ⟨by decide, by decide⟩,
    ((classify_partitions [recNoComment, recWithComment]).2.1 recWithComment).mpr
      ⟨by decide, by decide⟩,
    (classify_partitions [recNoComment, recWithComment]).2.2.2 recNoComment⟩

/-- Claim C7: with a specific year selected, the year filter keeps exactly
the records whose year equals that integer, so records with a null year
(for instance an unparsable date) are excluded; with no year selected the
records pass through unchanged. -/
theorem year_filter_semantics (y : Int) (rs : List Record) :
    (∀ r, r ∈ year_filter (some y) rs ↔ r ∈ rs ∧ r.year = some y) ∧
    year_filter none rs = rs := by
  refine ⟨fun r => ?_, rfl⟩
  simp [year_filter, List.mem_filter]

/-- Claim C7 witness: filtering the year list 2023, 2024, null for 2024
admits the 2024 record. -/
theorem year_filter_semantics_witness :
    (⟨some 2024, none, none, none, none⟩ : Record) ∈ year_filter (some 2024)
      [⟨some 2023, none, none, none, none⟩, ⟨some 2024, none, none, none, none⟩,
        ⟨none, none, none, none, none⟩] :=
  ((year_filter_semantics 2024 _).1 _).mpr ⟨by decide, rfl⟩

/-- Claim C2: the surviving co-occurrence triples are exactly the
(location, cause) pairs of the actual faults whose occurrence count is at
least 5, each with its exact count; in particular no triple with count
below 5 is ever present. -/
theorem pivot_support_exact (rs : List Record) (g c : String) (n : Nat) :
    (g, c, n) ∈ pivot rs ↔
      (g, c) ∈ heatmap_pairs rs ∧ n = (heatmap_pairs rs).count (g, c) ∧ 5 ≤ n := by
  unfold pivot pivot_counts
  rw [List.mem_filter]
  simp only [List.mem_map, List.mem_dedup, Prod.mk.injEq, decide_eq_true_eq]
  constructor
  · rintro ⟨⟨⟨p1, p2⟩, hp, h1, h2, h3⟩, h5⟩
    subst h1
    subst h2
    subst h3
    exact ⟨hp, rfl, h5⟩
  · rintro ⟨hmem, hn, h5⟩
    exact ⟨⟨(g, c), hmem, rfl, rfl, hn.symm⟩, h5⟩

/-- Claim C2 witness: five (A, X) pairs and one (B, Y) pair produce
exactly the triple (A, X, 5). -/
theorem pivot_support_exact_witness :
    ("A", "X", 5) ∈ pivot [recWithComment, recWithComment, recWithComment,
      recWithComment, recWithComment,
      ⟨some 2024, some "Yes", some "Cross_Data", some "B", some "Y"⟩] :=
  (pivot_support_exact _ "A" "X" 5).mpr (by decide)

/-- Claim C8: the grouping step yields pairwise distinct (location, cause)
keys and the thresholded list inherits this, so the dense reshape of line
93 can never meet a duplicate key. -/
theorem pivot_keys_nodup (rs : List Record) :
    ((pivot_counts rs).map fun t => (t.1, t.2.1)).Nodup ∧
    ((pivot rs).map fun t => (t.1, t.2.1)).Nodup := by
  have h1 : ((pivot_counts rs).map fun t => (t.1, t.2.1)) = (heatmap_pairs rs).dedup := by
    rw [pivot_counts, List.map_map]
    have h2 : ((fun t : String × String × Nat => (t.1, t.2.1)) ∘
        fun p : String × String => (p.1, p.2, (heatmap_pairs rs).count p)) = id := by
      funext p
      simp
    rw [h2, List.map_id]
  refine ⟨h1 ▸ List.nodup_dedup _, ?_⟩
  have hsub : List.Sublist (pivot rs) (pivot_counts rs) := List.filter_sublist _
  exact List.Nodup.sublist (hsub.map _) (h1 ▸ List.nodup_dedup _)

/-- Claim C3: ranked causes are sorted non increasing by count, and every
annotation value occurring among the actual faults appears exactly once,
paired with exactly its occurrence count. -/
theorem cause_counts_ranked (rs : List Record) :
    List.Sorted (fun p q : String × Nat => q.2 ≤ p.2) (cause_counts rs) ∧
    (∀ c n, (c, n) ∈ cause_counts rs ↔
      c ∈ ((df_actual rs).filterMap fun r => r.comment) ∧
      n = ((df_actual rs).filterMap fun r => r.comment).count c) ∧
    ((cause_counts rs).map Prod.fst).Nodup :=
  ⟨value_counts_sorted _, fun c n => mem_value_counts _ c n, value_counts_keys_nodup _⟩

/-- Claim C3 witness: the single cause X of a one record input is ranked
with count one. -/
theorem cause_counts_ranked_witness :
    ("X", 1) ∈ cause_counts [recWithComment] :=
  ((cause_counts_ranked [recWithComment]).2.1 "X" 1).mpr (by decide)

/-- Claim C9: the location distribution has no null key, lists exactly the
locations present among the actual faults with their exact counts, and its
counts sum to the number of actual faults with a present location. -/
theorem gealoc_counts_spec (rs : List Record) :
    (∀ g n, (g, n) ∈ gealoc_counts rs ↔
      g ∈ ((df_actual rs).filterMap fun r => r.gealoc) ∧
      n = ((df_actual rs).filterMap fun r => r.gealoc).count g) ∧
    ((gealoc_counts rs).map Prod.snd).sum =
      ((df_actual rs).filter fun r => r.gealoc.isSome).length := by
  refine ⟨fun g n => mem_value_counts _ g n, ?_⟩
  unfold gealoc_counts
  rw [value_counts_sum]
  exact length_filterMap_isSome _ _

/-- Claim C9 witness: the location sum property evaluated on a concrete
input containing a null location record. -/
theorem gealoc_counts_spec_witness :
    ((gealoc_counts [recWithComment,
        ⟨some 2024, some "Yes", some "Cross_Data", none, some "X"⟩]).map Prod.snd).sum =
      ((df_actual [recWithComment,
        ⟨some 2024, some "Yes", some "Cross_Data", none, some "X"⟩]).filter
          fun r => r.gealoc.isSome).length :=
  (gealoc_counts_spec _).2

/-- Claim C10: the ranked cause counts sum to the number of actual faults;
no record is lost between classification and cause counting because every
actual fault carries an annotation. -/
theorem cause_counts_sum (rs : List Record) :
    ((cause_counts rs).map Prod.snd).sum = actual_count rs := by
  unfold cause_counts
  rw [value_counts_sum, length_filterMap_isSome]
  unfold actual_count df_actual
  simp [List.filter_filter]

/-- Claim C5: an empty filtered record set raises no division error: both
percentage strings are 0.00%, both counts are 0, and the location
distribution, the co-occurrence triples and the ranked causes are all
empty. -/
theorem empty_input_defaults (rs : List Record) (h : total_reports rs = 0) :
    (summary_data rs).falsePct = "0.00%" ∧
    (summary_data rs).actualPct = "0.00%" ∧
    false_count rs = 0 ∧ actual_count rs = 0 ∧
    gealoc_counts rs = [] ∧ pivot rs = [] ∧ cause_counts rs = [] := by
  have hrs : rs = [] := List.length_eq_zero.1 h
  subst hrs
  refine ⟨rfl, rfl, rfl, rfl, ?_, rfl, ?_⟩
  · simp [gealoc_counts, value_counts, df_actual]
  · simp [cause_counts, value_counts, df_actual]

/-- Claim C5 witness: the empty input defaults evaluated at the empty
record set. -/
theorem empty_input_defaults_witness :
    (summary_data ([] : List Record)).falsePct = "0.00%" ∧
    (summary_data ([] : List Record)).actualPct = "0.00%" ∧
    false_count ([] : List Record) = 0 ∧ actual_count ([] : List Record) = 0 ∧
    gealoc_counts ([] : List Record) = [] ∧ pivot ([] : List Record) = [] ∧
    cause_counts ([] : List Record) = [] :=
  empty_input_defaults [] rfl

/-- Helper: the year filter only ever lets records of its input through. -/
theorem mem_of_year_filter {yopt : Option Int} {rs : List Record} {r : Record}
    (h : r ∈ year_filter yopt rs) : r ∈ rs := by
  cases yopt with
  | none => exact h
  | some y => exact (List.mem_filter.1 h).1

/-- Helper: the revenue hours filter only ever lets records of its input
through. -/
theorem mem_of_revenue_filter {ropt : Option String} {rs : List Record} {r : Record}
    (h : r ∈ revenue_filter ropt rs) : r ∈ rs := by
  cases ropt with
  | none => exact h
  | some v => exact (List.mem_filter.1 h).1

/-- Helper: the fault code filter only ever lets records of its input
through. -/
theorem mem_of_fault_code_filter {rs : List Record} {r : Record}
    (h : r ∈ fault_code_filter rs) : r ∈ rs :=
  (List.mem_filter.1 h).1

/-- Helper: the year filter leaves a list unchanged when every member
already passed it once. -/
theorem year_filter_fixed {yopt : Option Int} {rs ws : List Record}
    (hsub : ∀ r ∈ ws, r ∈ year_filter yopt rs) : year_filter yopt ws = ws := by
  cases yopt with
  | none => rfl
  | some y =>
    apply List.filter_eq_self.mpr
    intro r hr
    exact (List.mem_filter.1 (hsub r hr)).2

/-- Helper: the revenue hours filter leaves a list unchanged when every
member already passed it once. -/
theorem revenue_filter_fixed {ropt : Option String} {rs ws : List Record}
    (hsub : ∀ r ∈ ws, r ∈ revenue_filter ropt rs) : revenue_filter ropt ws = ws := by
  cases ropt with
  | none => rfl
  | some v =>
    apply List.filter_eq_self.mpr
    intro r hr
    exact (List.mem_filter.1 (hsub r hr)).2

/-- Helper: the fault code filter leaves a list unchanged when every
member already passed it once. -/
theorem fault_code_filter_fixed {rs ws : List Record}
    (hsub : ∀ r ∈ ws, r ∈ fault_code_filter rs) : fault_code_filter ws = ws := by
  apply List.filter_eq_self.mpr
  intro r hr
  exact (List.mem_filter.1 (hsub r hr)).2

/-- Claim C6: the filter pipeline fabricates no record (its output is a
subset of its input) and is idempotent: applying the same criteria twice
gives the same result as applying them once. -/
theorem apply_filters_subset_idem (c : FilterCriteria) (rs : List Record) :
    (∀ r, r ∈ apply_filters c rs → r ∈ rs) ∧
    apply_filters c (apply_filters c rs) = apply_filters c rs := by
  constructor
  · intro r hr
    exact mem_of_year_filter (mem_of_revenue_filter (mem_of_fault_code_filter hr))
  · have hY : year_filter c.year (apply_filters c rs) = apply_filters c rs :=
      year_filter_fixed (fun r hr =>
        mem_of_revenue_filter (mem_of_fault_code_filter hr))
    have hR : revenue_filter c.revenueHours (apply_filters c rs) = apply_filters c rs :=
      revenue_filter_fixed (fun r hr => mem_of_fault_code_filter hr)
    have hF : fault_code_filter (apply_filters c rs) = apply_filters c rs :=
      fault_code_filter_fixed (fun r hr => hr)
    show fault_code_filter (revenue_filter c.revenueHours
      (year_filter c.year (apply_filters c rs))) = apply_filters c rs
    rw [hY, hR, hF]

/-- Claim C6 witness: idempotence and the subset property evaluated on a
concrete input and criteria. -/
theorem apply_filters_subset_idem_witness :
    apply_filters ⟨some 2024, some "Yes"⟩
        (apply_filters ⟨some 2024, some "Yes"⟩
          [recWithComment, ⟨none, none, none, none, none⟩]) =
      apply_filters ⟨some 2024, some "Yes"⟩
        [recWithComment, ⟨none, none, none, none, none⟩] ∧
    recWithComment ∈ [recWithComment, ⟨none, none, none, none, none⟩] :=
  ⟨(apply_filters_subset_idem ⟨some 2024, some "Yes"⟩
      [recWithComment, ⟨none, none, none, none, none⟩]).2,
    (apply_filters_subset_idem ⟨some 2024, some "Yes"⟩
      [recWithComment, ⟨none, none, none, none, none⟩]).1 recWithComment (by decide)⟩

/-- Helper: the false alarm and actual fault counts add up to the total. -/
theorem counts_add (rs : List Record) :
    false_count rs + actual_count rs = total_reports rs := by
  unfold false_count actual_count total_reports df_false df_actual
  have hperm := List.filter_append_perm (fun r : Record => r.comment.isNone) rs
  have hlen := hperm.length_eq
  rw [List.length_append] at hlen
  have hfun : (fun r : Record => !r.comment.isNone) = fun r : Record => r.comment.isSome :=
    funext fun r => by cases r.comment <;> rfl
  rw [hfun] at hlen
  exact hlen

/-- Helper: rounding half to even of an integer valued rational is the
integer itself. -/
theorem rheQ_intCast (m : Int) : rheQ ((m : ℚ)) = m := by
  unfold rheQ
  rw [Int.floor_intCast]
  have h0 : ((m : ℚ) - (m : ℚ)) = 0 := by ring
  rw [h0]
  norm_num

/-- Helper: the two half to even roundings of a rational and of its
complement to 10000 always sum to 10000 (10000 is even, so the tie case
pairs one upward with one downward rounding). -/
theorem rheQ_add_complement (q : ℚ) : rheQ q + rheQ (10000 - q) = 10000 := by
  by_cases hz : Int.fract q = 0
  · have hq : q = (⌊q⌋ : ℚ) := by
      have hsf := Int.self_sub_floor q
      rw [hz] at hsf
      linarith
    rw [hq]
    have hcast : (10000 : ℚ) - (⌊q⌋ : ℚ) = ((10000 - ⌊q⌋ : ℤ) : ℚ) := by push_cast; ring
    rw [hcast, rheQ_intCast, rheQ_intCast]
    omega
  · have hfpos : 0 < Int.fract q := lt_of_le_of_ne (Int.fract_nonneg q) (Ne.symm hz)
    have hflt : Int.fract q < 1 := Int.fract_lt_one q
    have hle : (⌊q⌋ : ℚ) ≤ q := Int.floor_le q
    have hlt1 : q < ⌊q⌋ + 1 := Int.lt_floor_add_one q
    have hqn : q - (⌊q⌋ : ℚ) = Int.fract q := Int.self_sub_floor q
    have hnq : (⌊q⌋ : ℚ) < q := by
      by_contra hcon
      push_neg at hcon
      have : q - (⌊q⌋ : ℚ) ≤ 0 := by linarith
      rw [hqn] at this
      linarith
    have hfl2 : ⌊(10000 : ℚ) - q⌋ = 9999 - ⌊q⌋ := by
      rw [Int.floor_eq_iff]
      constructor
      · push_cast
        linarith
      · push_cast
        linarith
    unfold rheQ
    rw [hfl2, hqn]
    have hg : (10000 : ℚ) - q - ((9999 - ⌊q⌋ : ℤ) : ℚ) = 1 - Int.fract q := by
      push_cast
      rw [← hqn]
      ring
    rw [hg]
    rcases lt_trichotomy (Int.fract q) (1 / 2) with h | h | h
    · rw [if_pos h, if_neg (by linarith), if_pos (by linarith)]
      omega
    · rw [if_neg (show ¬(Int.fract q < 1 / 2) by linarith),
        if_neg (show ¬((1 : ℚ) / 2 < Int.fract q) by linarith),
        if_neg (show ¬(1 - Int.fract q < 1 / 2) by linarith),
        if_neg (show ¬((1 : ℚ) / 2 < 1 - Int.fract q) by linarith)]
      split_ifs with h1 h2 <;> omega
    · rw [if_neg (by linarith), if_pos h, if_pos (by linarith)]
      omega

/-- Helper: for a positive total split into two counts, the exact two
decimal percentages sum to exactly 10000 hundredths, that is 100.00%. -/
theorem exactPct_sum (c a t : Nat) (h : 0 < t) (hca : c + a = t) :
    exactPctHundredths c t + exactPctHundredths a t = 10000 := by
  unfold exactPctHundredths
  rw [if_neg (by omega), if_neg (by omega)]
  have ht : (t : ℚ) ≠ 0 := Nat.cast_ne_zero.2 (by omega)
  have hsum : (c : ℚ) + (a : ℚ) = (t : ℚ) := by exact_mod_cast hca
  have hrw : (a : ℚ) * 10000 / t = 10000 - (c : ℚ) * 10000 / t := by
    field_simp
    linarith
  rw [hrw]
  exact rheQ_add_complement _

/-- Helper: the false alarm percentage field of the summary, unfolded. -/
theorem summary_falsePct_eq (rs : List Record) :
    (summary_data rs).falsePct =
      if total_reports rs ≠ 0 then
        pctString (pythonPctHundredths (false_count rs) (total_reports rs))
      else "0.00%" := rfl

/-- Helper: the actual fault percentage field of the summary, unfolded. -/
theorem summary_actualPct_eq (rs : List Record) :
    (summary_data rs).actualPct =
      if total_reports rs ≠ 0 then
        pctString (pythonPctHundredths (actual_count rs) (total_reports rs))
      else "0.00%" := rfl

/-- Claim C4 counterexample: a filtered set of 4000 records with exactly
one false alarm.  The exact percentages are 0.025% and 99.975%; the code
evaluates them in double precision and formats 0.03% and 99.98%, which sum
to 100.01%, not 100.00%. -/
theorem summary_pct_sum_counterexample :
    0 < total_reports cexRecords ∧
    false_count cexRecords = 1 ∧
    actual_count cexRecords = 3999 ∧
    (summary_data cexRecords).falsePct = "0.03%" ∧
    (summary_data cexRecords).actualPct = "99.98%" ∧
    pythonPctHundredths (false_count cexRecords) (total_reports cexRecords) +
      pythonPctHundredths (actual_count cexRecords) (total_reports cexRecords) =
      10001 := by
  have ht : total_reports cexRecords = 4000 := by
    show cexRecords.length = 4000
    rw [cexRecords, List.length_cons, List.length_replicate]
  have hf : false_count cexRecords = 1 := by
    show (List.filter (fun r => r.comment.isNone) cexRecords).length = 1
    rw [cexRecords, List.filter_cons,
      if_pos (by decide : recNoComment.comment.isNone = true),
      List.filter_replicate_of_neg (by decide)]
    rfl
  have ha : actual_count cexRecords = 3999 := by
    show (List.filter (fun r => r.comment.isSome) cexRecords).length = 3999
    rw [cexRecords, List.filter_cons, if_neg (by decide),
      List.filter_replicate_of_pos (by decide), List.length_replicate]
  refine ⟨by omega, hf, ha, ?_, ?_, ?_⟩
  · rw [summary_falsePct_eq, ht, hf]
    decide
  · rw [summary_actualPct_eq, ht, ha]
    decide
  · rw [ht, hf, ha]
    decide

/-- Claim C4 amended: when the total is zero both percentage strings are
0.00%; when the total is positive the two percentages sum to exactly
100.00% under exact arithmetic with half to even rounding to two decimals
(the idealization of lines 63 and 65), while the double precision
evaluation the code actually performs can drift by one hundredth of a
percent, as the counterexample shows. -/
theorem summary_pct_sum_amended (rs : List Record) :
    (0 < total_reports rs →
      exactPctHundredths (false_count rs) (total_reports rs) +
        exactPctHundredths (actual_count rs) (total_reports rs) = 10000) ∧
    (total_reports rs = 0 →
      (summary_data rs).falsePct = "0.00%" ∧ (summary_data rs).actualPct = "0.00%") := by
  constructor
  · intro h
    exact exactPct_sum _ _ _ h (counts_add rs)
  · intro h
    constructor <;> simp [summary_data, h]

/-- Claim C4 amended witness: the exact percentage sum on a concrete two
record input, and the zero total defaults on the empty input. -/
theorem summary_pct_sum_amended_witness :
    exactPctHundredths (false_count [recNoComment, recWithComment])
        (total_reports [recNoComment, recWithComment]) +
      exactPctHundredths (actual_count [recNoComment, recWithComment])
        (total_reports [recNoComment, recWithComment]) = 10000 ∧
    ((summary_data ([] : List Record)).falsePct = "0.00%" ∧
      (summary_data ([] : List Record)).actualPct = "0.00%") :=
  ⟨(summary_pct_sum_amended [recNoComment, recWithComment]).1 (by decide),
    (summary_pct_sum_amended []).2 rfl⟩

/-- Claim C8 witness: distinct grouping keys evaluated on a concrete
input. -/
theorem pivot_keys_nodup_witness :
    ((pivot_counts [recWithComment,
        ⟨some 2024, some "Yes", some "Cross_Data", some "B", some "Y"⟩]).map
      fun t => (t.1, t.2.1)).Nodup :=
  (pivot_keys_nodup [recWithComment,
    ⟨some 2024, some "Yes", some "Cross_Data", some "B", some "Y"⟩]).1

/-- Claim C10 witness: the ranked cause count sum evaluated on a concrete
input. -/
theorem cause_counts_sum_witness :
    ((cause_counts [recNoComment, recWithComment]).map Prod.snd).sum =
      actual_count [recNoComment, recWithComment] :=
  cause_counts_sum [recNoComment, recWithComment]
